import Mathlib

/-!
Verification development for the StockTracker application (StockTracker/main.py).

The Python source is shallowly embedded below.  External effects are modelled as
explicit data passed in (provider responses, the optional spaCy entity extractor,
the VADER scorer, the article full-text downloader), and every network
interaction is recorded in an explicit event log so call counts, retries and
fallback order can be stated and proved.  Machine floats of the source are
modelled as exact rationals.
-/

/-- Python string containment helper: does the needle occur at the start of the
haystack? -/
def prefixOfList : List Char → List Char → Bool
  | [], _ => true
  | _ :: _, [] => false
  | a :: as, b :: bs => decide (a = b) && prefixOfList as bs

/-- Python string containment (the in operator on str): the needle occurs as a
contiguous substring of the haystack. -/
def isSubstr (needle haystack : List Char) : Bool :=
  match haystack with
  | [] => needle.isEmpty
  | c :: t => prefixOfList needle (c :: t) || isSubstr needle t

/-- Python str.lower, character by character. -/
def strToLower (s : String) : String :=
  String.mk (s.data.map Char.toLower)

/-- Python str.startswith. -/
def strStartsWith (s pre : String) : Bool :=
  prefixOfList pre.data s.data

/-- Helper for pySplit: split the remaining characters on whitespace runs,
cur holding the current word reversed. -/
def pySplitAux : List Char → List Char → List String
  | [], cur => if cur.isEmpty then [] else [String.mk cur.reverse]
  | c :: rest, cur =>
      if c.isWhitespace then
        (if cur.isEmpty then [] else [String.mk cur.reverse]) ++
          pySplitAux rest []
      else pySplitAux rest (c :: cur)

/-- Python str.split with no arguments: split on whitespace runs, dropping empty
pieces. -/
def pySplit (s : String) : List String :=
  pySplitAux s.data []

/-- SentimentScores: the four VADER components (main.py keys compound, pos, neu,
neg). -/
structure Scores where
  compound : Rat
  pos : Rat
  neu : Rat
  neg : Rat
  deriving DecidableEq

/-- The all-zero score dictionary used by analyze_sentiment for empty input and
by get_overall_sentiment for the empty article list. -/
def zeroScores : Scores := ⟨0, 0, 0, 0⟩

/-- Componentwise accumulation of score dictionaries (the total_scores loop in
get_overall_sentiment). -/
def Scores.add (a b : Scores) : Scores :=
  ⟨a.compound + b.compound, a.pos + b.pos, a.neu + b.neu, a.neg + b.neg⟩

/-- A news article dictionary.  Option models a key that is absent or holds
None; the nested source dict is flattened to its name field. -/
structure Article where
  title : Option String
  description : Option String
  url : String
  source : String := ""
  publishedAt : String := ""
  full_text : Option String := none
  deriving DecidableEq

/-- The lowercase title-plus-description string built at the top of
check_article_relevance. -/
def contentOf (a : Article) : String :=
  (match a.title with
    | some t => strToLower t
    | none => "") ++ " " ++
  (match a.description with
    | some d => strToLower d
    | none => "")

/-- The fixed finance-keyword list of check_article_relevance. -/
def stock_keywords : List String :=
  ["stock", "shares", "market", "investor", "finance", "earnings", "revenue",
   "profit", "loss"]

/-- The is_relevant part of check_article_relevance: with an entity extractor
(spaCy model loaded), membership of a company-name token or the lowercased
symbol among the extracted ORG and PRODUCT entities; in the degraded path,
literal substring occurrence in the combined text. -/
def entity_or_substring_match (nlpM : Option (String → List String))
    (company_name symbol content : String) : Bool :=
  match nlpM with
  | some f =>
      let entities := (f content).map strToLower
      ((pySplit (strToLower company_name)).any fun w =>
          decide (w ∈ entities)) ||
        decide (strToLower symbol ∈ entities)
  | none =>
      ((pySplit (strToLower company_name)).any fun w =>
          isSubstr w.toList content.toList) ||
        isSubstr (strToLower symbol).toList content.toList

/-- The has_stock_keyword part of check_article_relevance. -/
def has_stock_keyword (content : String) : Bool :=
  stock_keywords.any fun k => isSubstr k.toList content.toList

/-- check_article_relevance from main.py: relevance_score is the logical OR of
the entity or substring match and the keyword match. -/
def check_article_relevance (nlpM : Option (String → List String))
    (article : Article) (company_name symbol : String) : Bool :=
  entity_or_substring_match nlpM company_name symbol (contentOf article) ||
    has_stock_keyword (contentOf article)

/-- analyze_sentiment from main.py: None text scores all-zero, otherwise the
VADER scorer (passed in as sia) is applied. -/
def analyze_sentiment (sia : String → Scores) : Option String → Scores
  | none => zeroScores
  | some t => sia t

/-- The text handed to the scorer for one article: title, description and
full_text concatenated with single blanks, each None replaced by an empty
string. -/
def articleText (a : Article) : String :=
  (a.title.getD "") ++ " " ++ (a.description.getD "") ++ " " ++
    (a.full_text.getD "")

/-- get_overall_sentiment from main.py: the N/A sentinel for the empty list,
otherwise the componentwise arithmetic mean of the per-article scores together
with the threshold label on the averaged compound score. -/
def get_overall_sentiment (sia : String → Scores) (articles : List Article) :
    String × Scores :=
  if articles.isEmpty then ("N/A", zeroScores)
  else
    let total := articles.foldl
      (fun t a => Scores.add t (analyze_sentiment sia (some (articleText a))))
      zeroScores
    let n : Rat := (articles.length : Rat)
    let avg : Scores := ⟨total.compound / n, total.pos / n, total.neu / n,
      total.neg / n⟩
    let c := avg.compound
    let label :=
      if c > 4/10 then "Very Positive"
      else if 1/10 ≤ c ∧ c ≤ 4/10 then "Positive"
      else if -(1/10) < c ∧ c < 1/10 then "Neutral"
      else if -(4/10) ≤ c ∧ c ≤ -(1/10) then "Negative"
      else "Very Negative"
    (label, avg)

/-- Arithmetic mean of each of the four score components over the article list,
written from the specification text of the aggregate-sentiment contract. -/
def specMeanScores (sia : String → Scores) (articles : List Article) : Scores :=
  ⟨((articles.map fun a => (sia (articleText a)).compound).sum) /
      (articles.length : Rat),
   ((articles.map fun a => (sia (articleText a)).pos).sum) /
      (articles.length : Rat),
   ((articles.map fun a => (sia (articleText a)).neu).sum) /
      (articles.length : Rat),
   ((articles.map fun a => (sia (articleText a)).neg).sum) /
      (articles.length : Rat)⟩

/-- The label table written from the specification text: above 0.4 Very
Positive; 0.1 to 0.4 Positive; strictly between -0.1 and 0.1 Neutral; -0.4 to
-0.1 Negative; anything else Very Negative. -/
def claimLabel (c : Rat) : String :=
  if c > 4/10 then "Very Positive"
  else if 1/10 ≤ c ∧ c ≤ 4/10 then "Positive"
  else if -(1/10) < c ∧ c < 1/10 then "Neutral"
  else if -(4/10) ≤ c ∧ c ≤ -(1/10) then "Negative"
  else "Very Negative"

/-- One network interaction of the pipeline, recorded in order in an event log.
secondaryPriceCall stands for the Alpha Vantage TimeSeries client, which the
source imports but never invokes; sleep stands for a time.sleep backoff delay,
which the source never performs. -/
inductive ProviderEvent where
  | primaryHistoryCall
  | primaryInfoCall
  | alphaVantageCall
  | recommendationsCall
  | secondaryPriceCall
  | sleep (seconds : Rat)
  | newsApiCall
  | yahooCall
  | googleCall
  deriving DecidableEq

/-- Recognizes backoff delays in an event log. -/
def isSleepEvent : ProviderEvent → Bool
  | ProviderEvent.sleep _ => true
  | _ => false

/-- Recognizes news-provider interactions in an event log. -/
def isNewsEvent : ProviderEvent → Bool
  | ProviderEvent.newsApiCall => true
  | ProviderEvent.yahooCall => true
  | ProviderEvent.googleCall => true
  | _ => false

/-- One daily price row of the yfinance history frame. -/
structure PricePoint where
  date : String
  openPrice : Rat
  high : Rat
  low : Rat
  close : Rat
  volume : Rat
  deriving DecidableEq

/-- One annual income-statement record as the display code reads it: a fiscal
date together with parsed eps, totalRevenue and netIncome numbers. -/
structure IncomeStmt where
  fiscalDateEnding : String
  eps : Rat
  totalRevenue : Rat
  netIncome : Rat
  deriving DecidableEq

/-- A successful Alpha Vantage fundamental-data response (income statement,
balance sheet, cash flow). -/
structure AVPayload where
  income : List IncomeStmt
  balance : List (String × String)
  cash : List (String × String)
  deriving DecidableEq

/-- The behaviour of the market-data providers for one request: None models the
call raising an exception.  info is the loosely typed key-value blob returned
by yfinance. -/
structure MarketProvider where
  history : Option (List PricePoint)
  info : Option (List (String × String))
  alphaVantage : Option AVPayload
  recommendations : Option (List (String × String))
  deriving DecidableEq

/-- fetch_alpha_vantage_data from main.py: any failure is absorbed and reported
as the (None, None, None) triple. -/
def fetch_alpha_vantage_data (av : Option AVPayload) :
    Option (List IncomeStmt) × Option (List (String × String)) ×
      Option (List (String × String)) :=
  match av with
  | some p => (some p.income, some p.balance, some p.cash)
  | none => (none, none, none)

/-- calculate_historical_forward_pe from main.py: one (date, forward price over
earnings) row per statement with positive eps. -/
def calculate_historical_forward_pe (stmts : List IncomeStmt)
    (current_price : Rat) : List (String × Rat) :=
  stmts.filterMap fun st =>
    if 0 < st.eps then some (st.fiscalDateEnding, current_price / st.eps)
    else none

/-- The keys of the detailed_info dictionary built by fetch_stock_data. -/
def infoKeys : List String :=
  ["longName", "sector", "industry", "country", "website", "marketCap",
   "forwardPE", "trailingPE", "dividendYield", "bookValue", "priceToBook",
   "returnOnEquity", "returnOnAssets", "debtToEquity", "currentRatio",
   "quickRatio", "beta", "fiftyTwoWeekHigh", "fiftyTwoWeekLow",
   "averageVolume", "fullTimeEmployees"]

/-- Python dict.get with default N/A on the loosely typed info blob. -/
def infoGet (blob : List (String × String)) (k : String) : String :=
  match blob.find? (fun p => decide (p.1 = k)) with
  | some p => p.2
  | none => "N/A"

/-- The normalized record assembled by fetch_stock_data. -/
structure DetailedInfo where
  fields : List (String × String)
  peHistory : List (String × Rat)
  income_statement : Option (List IncomeStmt)
  balance_sheet : Option (List (String × String))
  cash_flow : Option (List (String × String))
  analyst_recommendations : Option (List (String × String))
  deriving DecidableEq

/-- The detailed_info dictionary of fetch_stock_data: every info field is read
with an N/A default, the forward-pe history is computed only when the latest
close and the income statement are truthy, and the Alpha Vantage and
recommendation payloads are passed through. -/
def buildDetailedInfo (hist : List PricePoint) (blob : List (String × String))
    (av : Option AVPayload) (recs : Option (List (String × String))) :
    DetailedInfo :=
  let avd := fetch_alpha_vantage_data av
  let income_statement := avd.1
  let current_price : Rat :=
    match hist.getLast? with
    | some pt => pt.close
    | none => 0
  let pe_history : List (String × Rat) :=
    match income_statement with
    | some stmts =>
        if current_price ≠ 0 ∧ stmts ≠ [] then
          calculate_historical_forward_pe stmts current_price
        else []
    | none => []
  { fields := infoKeys.map fun k => (k, infoGet blob k)
    peHistory := pe_history
    income_statement := income_statement
    balance_sheet := avd.2.1
    cash_flow := avd.2.2
    analyst_recommendations := recs }

/-- fetch_stock_data from main.py.  The single yfinance history call is made
first; a raised exception or an empty frame yields the (None, None) failure
pair at once.  Otherwise stock.info is read (an exception there is caught by
the surrounding handler and again yields the failure pair), then the Alpha
Vantage fundamentals and the analyst recommendations are fetched, both
absorbing their own errors.  No call is retried, no delay is taken, and the
Alpha Vantage time-series price endpoint is never contacted. -/
def fetch_stock_data (p : MarketProvider) :
    Option (List PricePoint × DetailedInfo) × List ProviderEvent :=
  match p.history with
  | none => (none, [ProviderEvent.primaryHistoryCall])
  | some hist =>
      if hist.isEmpty then (none, [ProviderEvent.primaryHistoryCall])
      else
        match p.info with
        | none =>
            (none,
             [ProviderEvent.primaryHistoryCall, ProviderEvent.primaryInfoCall])
        | some blob =>
            (some (hist, buildDetailedInfo hist blob p.alphaVantage
                p.recommendations),
             [ProviderEvent.primaryHistoryCall, ProviderEvent.primaryInfoCall,
              ProviderEvent.alphaVantageCall,
              ProviderEvent.recommendationsCall])

/-- One scraped listing entry (Yahoo Finance news page or Google News feed)
after field extraction; an empty string stands for a missing piece of markup. -/
structure ScrapedItem where
  title : String
  link : String
  description : String
  pubDate : String
  deriving DecidableEq

/-- The Yahoo Finance phase of fetch_news_articles_fallback: keep each item
with a nonempty title and link, absolutizing site-relative links. -/
def yahooArticles (items : List ScrapedItem) : List Article :=
  items.filterMap fun it =>
    if it.title ≠ "" ∧ it.link ≠ "" then
      some { title := some it.title
             description := some it.description
             url := if strStartsWith it.link "/" then
                 "https://finance.yahoo.com" ++ it.link
               else it.link
             source := "Yahoo Finance"
             publishedAt := it.pubDate }
    else none

/-- The article list produced by the Yahoo Finance source, the empty list when
the page request raised. -/
def yahooFetched (yahoo : Option (List ScrapedItem)) : List Article :=
  match yahoo with
  | none => []
  | some items => yahooArticles items

/-- fetch_news_articles_fallback from main.py: scrape Yahoo Finance, and only
when that yielded fewer than 5 articles also query the Google News feed, whose
first 10 items are kept when nonempty and relevance-checked; the combined list
is cut to 5.  The Yahoo articles themselves are never relevance-checked. -/
def fetch_news_articles_fallback (nlpM : Option (String → List String))
    (yahoo google : Option (List ScrapedItem)) (symbol company_name : String) :
    List Article × List ProviderEvent :=
  let fromYahoo := yahooFetched yahoo
  if fromYahoo.length < 5 then
    let fromGoogle : List Article :=
      match google with
      | none => []
      | some items =>
          (items.take 10).filterMap fun it =>
            if it.title ≠ "" ∧ it.link ≠ "" ∧
                check_article_relevance nlpM
                  { title := some it.title, description := some it.description,
                    url := "" } company_name symbol = true then
              some { title := some it.title
                     description := some it.description
                     url := it.link
                     source := "Google News"
                     publishedAt := it.pubDate }
            else none
    ((fromYahoo ++ fromGoogle).take 5,
     [ProviderEvent.yahooCall, ProviderEvent.googleCall])
  else (fromYahoo.take 5, [ProviderEvent.yahooCall])

/-- The News API collection loop of fetch_news_articles: walk the response in
order; keep a relevant article when its url is new, attaching the downloaded
full text (or, on download failure, the short description); stop as soon as
count articles are held. -/
def collectLoop (nlpM : Option (String → List String))
    (ft : String → Option String) (company_name symbol : String)
    (count : Nat) : List Article → List Article → List Article
  | [], acc => acc
  | a :: rest, acc =>
      if check_article_relevance nlpM a company_name symbol = true then
        if (acc.any fun b => decide (b.url = a.url)) = true then
          collectLoop nlpM ft company_name symbol count rest acc
        else
          let a2 : Article :=
            { a with full_text :=
                match ft a.url with
                | some t => some t
                | none => a.description }
          let acc2 := acc ++ [a2]
          if acc2.length = count then acc2
          else collectLoop nlpM ft company_name symbol count rest acc2
      else collectLoop nlpM ft company_name symbol count rest acc

/-- The external world of one orchestrated request: provider behaviours and the
process-level configuration read at startup. -/
structure Env where
  market : MarketProvider
  newsKey : Bool
  newsApi : Option (List Article)
  yahoo : Option (List ScrapedItem)
  google : Option (List ScrapedItem)
  fullText : String → Option String
  nlpM : Option (String → List String)
  sia : String → Scores

/-- fetch_news_articles from main.py: without a News API key the fallback runs
directly; with one, the keyed query is made and a raised request, an
unexpected error or an empty article list all divert to the fallback;
otherwise the dedup-filter collection loop runs over the response. -/
def fetch_news_articles (env : Env) (symbol company_name : String)
    (num_articles : Nat) : List Article × List ProviderEvent :=
  if env.newsKey = false then
    fetch_news_articles_fallback env.nlpM env.yahoo env.google symbol
      company_name
  else
    match env.newsApi with
    | none =>
        let r := fetch_news_articles_fallback env.nlpM env.yahoo env.google
          symbol company_name
        (r.1, ProviderEvent.newsApiCall :: r.2)
    | some [] =>
        let r := fetch_news_articles_fallback env.nlpM env.yahoo env.google
          symbol company_name
        (r.1, ProviderEvent.newsApiCall :: r.2)
    | some (a :: rest) =>
        (collectLoop env.nlpM env.fullText company_name symbol num_articles
          (a :: rest) [],
         [ProviderEvent.newsApiCall])

/-- What display_stock_info renders: the market sections, and the sentiment
section when the news fetch produced articles. -/
structure DisplayResult where
  marketInfoShown : Bool
  sentiment : Option (String × Scores)
  deriving DecidableEq

/-- display_stock_info from main.py, observed through its rendered outcome: the
market sections are shown, then the news fetch (with the longName company and
count 5) feeds the sentiment section, which shows the no-articles warning when
the fetch came back empty. -/
def display_stock_info (env : Env) (symbol : String) (hist : List PricePoint)
    (info : DetailedInfo) : DisplayResult × List ProviderEvent :=
  let r := fetch_news_articles env symbol (infoGet info.fields "longName") 5
  ({ marketInfoShown := true
     sentiment :=
       if r.1.isEmpty then none
       else some (get_overall_sentiment env.sia r.1) },
   r.2)

/-- The outcome of one run of main after the input widgets. -/
inductive MainOutcome where
  | inputError
  | noSymbol
  | fetchFailed
  | report (d : DisplayResult)
  deriving DecidableEq

/-- The request path of main from main.py: the date-range check comes first and
returns at once on start at or after end; with a symbol present the market
fetch runs, a failure of which is reported without ever reaching
display_stock_info; otherwise display_stock_info runs the news and sentiment
side. -/
def mainRun (env : Env) (symbol : String) (start_date end_date : Int) :
    MainOutcome × List ProviderEvent :=
  if end_date ≤ start_date then (MainOutcome.inputError, [])
  else if symbol = "" then (MainOutcome.noSymbol, [])
  else
    match fetch_stock_data env.market with
    | (none, log) => (MainOutcome.fetchFailed, log)
    | (some (hist, info), log) =>
        let d := display_stock_info env symbol hist info
        (MainOutcome.report d.1, log ++ d.2)

/-- A market provider whose yfinance history call raises on every attempt. -/
def pFail : MarketProvider :=
  { history := none, info := none, alphaVantage := none,
    recommendations := none }

/-- A market provider whose yfinance history call returns an empty frame. -/
def pEmptyHist : MarketProvider :=
  { history := some [], info := none, alphaVantage := none,
    recommendations := none }

/-- A scorer that returns the zero dictionary for every text. -/
def siaZero : String → Scores := fun _ => zeroScores

/-- A small concrete article for witnesses. -/
def artW : Article :=
  { title := some "Good", description := none, url := "http://w/1" }

/-- A concrete article about nothing financial: no company token, no symbol, no
finance keyword. -/
def artIrr : Article :=
  { title := some "Weather today", description := some "sunny and warm",
    url := "http://w/9" }

/-- A relevant concrete News API article. -/
def artRel : Article :=
  { title := some "Apple stock rises", description := some "strong earnings",
    url := "http://n/1" }

/-- A scraped Yahoo Finance item about nothing financial. -/
def itemIrr : ScrapedItem :=
  { title := "zzz qqq vvv", link := "http://ex.com/a", description := "",
    pubDate := "" }

/-- An environment with no News API key whose Yahoo fallback yields one
irrelevant article. -/
def envFB : Env :=
  { market := pFail, newsKey := false, newsApi := none,
    yahoo := some [itemIrr], google := some [],
    fullText := fun _ => none, nlpM := none, sia := siaZero }

/-- An environment whose News API returns one relevant article. -/
def envNA : Env :=
  { market := pFail, newsKey := true, newsApi := some [artRel],
    yahoo := none, google := none,
    fullText := fun _ => none, nlpM := none, sia := siaZero }

/-- A quiet environment for input-validation witnesses. -/
def envQuiet : Env :=
  { market := pFail, newsKey := false, newsApi := none, yahoo := none,
    google := none, fullText := fun _ => none, nlpM := none, sia := siaZero }

/-- A concrete price row. -/
def ptY : PricePoint :=
  { date := "2024-01-02", openPrice := 1, high := 1, low := 1, close := 1,
    volume := 1 }

/-- A market provider whose history and info calls succeed. -/
def mSucc : MarketProvider :=
  { history := some [ptY], info := some [], alphaVantage := none,
    recommendations := none }

/-- An environment whose market fetch fails while the news providers stand
ready with a relevant article. -/
def envFail : Env :=
  { market := pFail, newsKey := true, newsApi := some [artRel],
    yahoo := some [], google := some [],
    fullText := fun _ => none, nlpM := none, sia := siaZero }

/-- An environment whose market fetch succeeds while every news source comes
back empty. -/
def envOk : Env :=
  { market := mSucc, newsKey := true, newsApi := some [], yahoo := some [],
    google := some [], fullText := fun _ => none, nlpM := none, sia := siaZero }

/-- The normalized record the successful market fetch of envOk produces. -/
def infoY : DetailedInfo := buildDetailedInfo [ptY] [] none none

/-! ### Helper lemmas -/

theorem ne_nil_isEmpty_eq_false {α : Type} (l : List α) (h : l ≠ []) :
    l.isEmpty = false := by
  cases l with
  | nil => exact absurd rfl h
  | cons a t => rfl

theorem foldl_addScores (g : Article → Scores) (l : List Article) (s : Scores) :
    l.foldl (fun t a => Scores.add t (g a)) s =
      ⟨s.compound + (l.map fun a => (g a).compound).sum,
       s.pos + (l.map fun a => (g a).pos).sum,
       s.neu + (l.map fun a => (g a).neu).sum,
       s.neg + (l.map fun a => (g a).neg).sum⟩ := by
  induction l generalizing s with
  | nil => simp
  | cons a t ih =>
      rw [List.foldl_cons, ih]
      simp only [List.map_cons, List.sum_cons, Scores.add]
      congr 1 <;> ring

theorem gos_eq (sia : String → Scores) (l : List Article)
    (h : l.isEmpty = false) :
    get_overall_sentiment sia l =
      (claimLabel (specMeanScores sia l).compound, specMeanScores sia l) := by
  simp only [get_overall_sentiment, h, Bool.false_eq_true, if_false]
  rw [foldl_addScores (fun a => analyze_sentiment sia (some (articleText a))) l
    zeroScores]
  simp only [zeroScores, zero_add, analyze_sentiment]
  rfl

/-! ### C3 -/

/-- C3: For every scorer and non-empty article list, get_overall_sentiment
returns exactly the componentwise arithmetic mean of the per-article scores,
labelled by the fixed non-overlapping threshold table: compound above 0.4 is
Very Positive, 0.1 to 0.4 is Positive, strictly between -0.1 and 0.1 is
Neutral, -0.4 to -0.1 is Negative, anything else Very Negative. -/
theorem C3_overall_sentiment_thresholds (sia : String → Scores)
    (articles : List Article) (h : articles ≠ []) :
    get_overall_sentiment sia articles =
      (claimLabel (specMeanScores sia articles).compound,
       specMeanScores sia articles) :=
  gos_eq sia articles (ne_nil_isEmpty_eq_false articles h)

/-- C3 witness: the theorem applied to a concrete one-article list under the
zero scorer. -/
theorem C3_overall_sentiment_thresholds_witness :
    get_overall_sentiment siaZero [artW] =
      (claimLabel (specMeanScores siaZero [artW]).compound,
       specMeanScores siaZero [artW]) :=
  C3_overall_sentiment_thresholds siaZero [artW] (List.cons_ne_nil artW [])

/-! ### C4 -/

/-- C4: the empty article list yields the N/A sentinel paired with zero scores,
while a single article whose scores are all zero yields the Neutral label;
the two aggregates differ in their label component, so the sentinel is
distinguishable from the zero-scored aggregate. -/
theorem C4_empty_sentinel_vs_neutral (sia : String → Scores) (a : Article)
    (h : sia (articleText a) = zeroScores) :
    get_overall_sentiment sia [] = ("N/A", zeroScores) ∧
    get_overall_sentiment sia [a] = ("Neutral", zeroScores) := by
  refine ⟨rfl, ?_⟩
  rw [gos_eq sia [a] rfl]
  have hm : specMeanScores sia [a] = zeroScores := by
    simp [specMeanScores, h, zeroScores]
  rw [hm]
  have hc : zeroScores.compound = 0 := rfl
  rw [hc]
  have hl : claimLabel 0 = "Neutral" := by
    unfold claimLabel
    rw [if_neg (by norm_num), if_neg (by norm_num), if_pos (by norm_num)]
  rw [hl]

/-- C4 witness: the theorem applied to the zero scorer and a concrete
article. -/
theorem C4_empty_sentinel_vs_neutral_witness :
    get_overall_sentiment siaZero [] = ("N/A", zeroScores) ∧
    get_overall_sentiment siaZero [artW] = ("Neutral", zeroScores) :=
  C4_empty_sentinel_vs_neutral siaZero artW rfl

/-! ### C5 -/

/-- C5: the relevance decision is exactly the logical OR of the entity or
substring match and the finance-keyword match; and whenever the combined text
contains no company-name token, not the lowercased symbol, and no finance
keyword (with the extracted entities sound, i.e. substrings of the text the
extractor was given), the article is not relevant. -/
theorem C5_relevance_logical_or (nlpM : Option (String → List String))
    (a : Article) (company_name symbol : String)
    (hsound : ∀ f, nlpM = some f → ∀ e ∈ f (contentOf a),
      isSubstr (strToLower e).toList (contentOf a).toList = true)
    (hwords : ∀ w ∈ pySplit (strToLower company_name),
      isSubstr w.toList (contentOf a).toList = false)
    (hsym : isSubstr (strToLower symbol).toList (contentOf a).toList = false)
    (hkw : ∀ k ∈ stock_keywords,
      isSubstr k.toList (contentOf a).toList = false) :
    check_article_relevance nlpM a company_name symbol =
      (entity_or_substring_match nlpM company_name symbol (contentOf a) ||
        has_stock_keyword (contentOf a)) ∧
    check_article_relevance nlpM a company_name symbol = false := by
  refine ⟨rfl, ?_⟩
  have hk : has_stock_keyword (contentOf a) = false := by
    simp only [has_stock_keyword, List.any_eq_false]
    intro k hkmem
    simp only [Bool.not_eq_true]
    exact hkw k hkmem
  unfold check_article_relevance
  rw [hk, Bool.or_false]
  cases nlpM with
  | none =>
      simp only [entity_or_substring_match, Bool.or_eq_false_iff]
      constructor
      · simp only [List.any_eq_false]
        intro w hw
        simp only [Bool.not_eq_true]
        exact hwords w hw
      · exact hsym
  | some f =>
      simp only [entity_or_substring_match, Bool.or_eq_false_iff]
      constructor
      · simp only [List.any_eq_false]
        intro w hw
        simp only [Bool.not_eq_true, decide_eq_false_iff_not, List.mem_map]
        rintro ⟨e, he, hlow⟩
        have hse := hsound f rfl e he
        rw [hlow] at hse
        rw [hwords w hw] at hse
        exact Bool.noConfusion hse
      · simp only [decide_eq_false_iff_not, List.mem_map]
        rintro ⟨e, he, hlow⟩
        have hse := hsound f rfl e he
        rw [hlow] at hse
        rw [hsym] at hse
        exact Bool.noConfusion hse

/-- C5 witness: the theorem applied, in the degraded path, to a concrete
article whose text contains no Apple token, no AAPL, and no finance
keyword. -/
theorem C5_relevance_logical_or_witness :
    (check_article_relevance none artIrr "Apple Inc." "AAPL" =
      (entity_or_substring_match none "Apple Inc." "AAPL" (contentOf artIrr) ||
        has_stock_keyword (contentOf artIrr))) ∧
    check_article_relevance none artIrr "Apple Inc." "AAPL" = false :=
  C5_relevance_logical_or none artIrr "Apple Inc." "AAPL"
    (fun f h => nomatch h) (by decide) (by decide) (by decide)

/-! ### C10 -/

/-- C10: a missing (absent or None) title or description is treated exactly as
the empty string: the relevance decision is unchanged when the missing field is
replaced by an empty string, and the total function returns a boolean in every
case. -/
theorem C10_missing_fields_as_empty (nlpM : Option (String → List String))
    (company_name symbol : String) (d t : Option String) (u src pub : String)
    (ft : Option String) :
    check_article_relevance nlpM
        { title := none, description := d, url := u, source := src,
          publishedAt := pub, full_text := ft } company_name symbol =
      check_article_relevance nlpM
        { title := some "", description := d, url := u, source := src,
          publishedAt := pub, full_text := ft } company_name symbol ∧
    check_article_relevance nlpM
        { title := t, description := none, url := u, source := src,
          publishedAt := pub, full_text := ft } company_name symbol =
      check_article_relevance nlpM
        { title := t, description := some "", url := u, source := src,
          publishedAt := pub, full_text := ft } company_name symbol := by
  have h0 : strToLower "" = "" := rfl
  constructor <;> simp [check_article_relevance, contentOf, h0]

/-! ### C9 -/

/-- C9: the news fallback returns at most 5 articles whatever the two scrape
sources yield, and the Google News feed is contacted exactly when the Yahoo
Finance source yielded fewer than 5 articles. -/
theorem C9_fallback_cap_and_google_gating (nlpM : Option (String → List String))
    (yahoo google : Option (List ScrapedItem)) (symbol company_name : String) :
    (fetch_news_articles_fallback nlpM yahoo google symbol
        company_name).1.length ≤ 5 ∧
    (fetch_news_articles_fallback nlpM yahoo google symbol
        company_name).2.count ProviderEvent.googleCall =
      (if (yahooFetched yahoo).length < 5 then 1 else 0) := by
  unfold fetch_news_articles_fallback
  by_cases h : (yahooFetched yahoo).length < 5
  · simp only [h, if_true]
    exact ⟨List.length_take_le 5 _, by decide⟩
  · simp only [h, if_false]
    exact ⟨List.length_take_le 5 _, by decide⟩

/-! ### C6 helper lemmas about the collection loop -/

theorem check_update_full_text (nlpM : Option (String → List String))
    (a : Article) (x : Option String) (company_name symbol : String) :
    check_article_relevance nlpM { a with full_text := x } company_name symbol =
      check_article_relevance nlpM a company_name symbol := rfl

theorem collectLoop_all_relevant (nlpM : Option (String → List String))
    (ft : String → Option String) (company_name symbol : String) (count : Nat) :
    ∀ (l acc : List Article),
      (acc.all fun x =>
          check_article_relevance nlpM x company_name symbol) = true →
      ((collectLoop nlpM ft company_name symbol count l acc).all fun x =>
          check_article_relevance nlpM x company_name symbol) = true := by
  intro l
  induction l with
  | nil => intro acc h; simpa [collectLoop] using h
  | cons a rest ih =>
      intro acc h
      simp only [collectLoop]
      split
      case isTrue hrel =>
        split
        case isTrue => exact ih acc h
        case isFalse hdup =>
          split
          case isTrue hstop =>
            simp only [List.all_append, List.all_cons, List.all_nil,
              Bool.and_true, check_update_full_text, h, hrel, Bool.true_and]
          case isFalse hcont =>
            apply ih
            simp only [List.all_append, List.all_cons, List.all_nil,
              Bool.and_true, check_update_full_text, h, hrel, Bool.true_and]
      case isFalse hrel => exact ih acc h

theorem collectLoop_nodup_urls (nlpM : Option (String → List String))
    (ft : String → Option String) (company_name symbol : String) (count : Nat) :
    ∀ (l acc : List Article),
      (acc.map fun x => x.url).Nodup →
      ((collectLoop nlpM ft company_name symbol count l acc).map
          fun x => x.url).Nodup := by
  intro l
  induction l with
  | nil => intro acc h; simpa [collectLoop] using h
  | cons a rest ih =>
      intro acc h
      simp only [collectLoop]
      split
      case isTrue hrel =>
        split
        case isTrue => exact ih acc h
        case isFalse hdup =>
          have hnotin : a.url ∉ acc.map fun x => x.url := by
            intro hmem
            obtain ⟨b, hb, hbu⟩ := List.mem_map.mp hmem
            have : (acc.any fun b => decide (b.url = a.url)) = true := by
              rw [List.any_eq_true]
              exact ⟨b, hb, by simp [hbu]⟩
            exact hdup this
          have hacc2 : ((acc ++
              [({ a with full_text :=
                  match ft a.url with
                  | some t => some t
                  | none => a.description } : Article)]).map
                fun x => x.url).Nodup := by
            simp only [List.map_append, List.map_cons, List.map_nil]
            rw [List.nodup_append]
            exact ⟨h, List.nodup_singleton _,
              by simpa [List.disjoint_singleton] using hnotin⟩
          split
          case isTrue hstop => exact hacc2
          case isFalse hcont => exact ih _ hacc2
      case isFalse hrel => exact ih acc h

theorem collectLoop_urls_sublist (nlpM : Option (String → List String))
    (ft : String → Option String) (company_name symbol : String) (count : Nat) :
    ∀ (l acc : List Article),
      ∃ t, ((collectLoop nlpM ft company_name symbol count l acc).map
          fun x => x.url) = (acc.map fun x => x.url) ++ t ∧
        t.Sublist (l.map fun x => x.url) := by
  intro l
  induction l with
  | nil =>
      intro acc
      exact ⟨[], by simp [collectLoop], by simp⟩
  | cons a rest ih =>
      intro acc
      simp only [collectLoop]
      split
      case isTrue hrel =>
        split
        case isTrue hdup =>
          obtain ⟨t, ht, hs⟩ := ih acc
          exact ⟨t, ht, by simpa using hs.cons a.url⟩
        case isFalse hdup =>
          split
          case isTrue hstop =>
            refine ⟨[a.url], by simp, ?_⟩
            simpa using (List.nil_sublist
              (rest.map fun x => x.url)).cons₂ a.url
          case isFalse hcont =>
            obtain ⟨t, ht, hs⟩ := ih (acc ++
              [{ a with full_text :=
                  match ft a.url with
                  | some t => some t
                  | none => a.description }])
            refine ⟨a.url :: t, ?_, by simpa using hs.cons₂ a.url⟩
            rw [ht]
            simp
      case isFalse hrel =>
        obtain ⟨t, ht, hs⟩ := ih acc
        exact ⟨t, ht, by simpa using hs.cons a.url⟩

theorem collectLoop_length_le (nlpM : Option (String → List String))
    (ft : String → Option String) (company_name symbol : String) (count : Nat) :
    ∀ (l acc : List Article), acc.length < count →
      (collectLoop nlpM ft company_name symbol count l acc).length ≤ count := by
  intro l
  induction l with
  | nil => intro acc h; simpa [collectLoop] using Nat.le_of_lt h
  | cons a rest ih =>
      intro acc h
      simp only [collectLoop]
      split
      case isTrue hrel =>
        split
        case isTrue hdup => exact ih acc h
        case isFalse hdup =>
          split
          case isTrue hstop => omega
          case isFalse hcont =>
            apply ih
            simp only [List.length_append, List.length_cons,
              List.length_nil] at hcont ⊢
            omega
      case isFalse hrel => exact ih acc h

/-! ### C6 -/

/-- C6 counterexample: with no News API key configured, the fetch hands back
the Yahoo Finance fallback articles without any relevance filtering, so an
article about nothing financial (no company token, no symbol, no finance
keyword) is returned; the claim that every returned article passed the
Relevance Filter is therefore false at this input. -/
theorem C6_counterexample :
    ¬ (∀ a ∈ (fetch_news_articles envFB "AAPL" "Apple Inc." 5).1,
        check_article_relevance envFB.nlpM a "Apple Inc." "AAPL" = true) := by
  decide

/-- C6 amended: on the primary News API path (key present, non-empty response)
every returned article passed the Relevance Filter, the returned urls are
pairwise distinct with the first occurrence winning, they appear in
provider-return order, and at most count articles are returned. -/
theorem C6_amended_primary_path (env : Env) (symbol company_name : String)
    (count : Nat) (l : List Article) (hc : 0 < count)
    (hk : env.newsKey = true) (hapi : env.newsApi = some l) (hne : l ≠ []) :
    ((fetch_news_articles env symbol company_name count).1.all
        fun a => check_article_relevance env.nlpM a company_name symbol)
      = true ∧
    ((fetch_news_articles env symbol company_name count).1.map
        fun a => a.url).Nodup ∧
    ((fetch_news_articles env symbol company_name count).1.map
        fun a => a.url).Sublist (l.map fun a => a.url) ∧
    (fetch_news_articles env symbol company_name count).1.length ≤ count := by
  have hfetch : (fetch_news_articles env symbol company_name count).1
      = collectLoop env.nlpM env.fullText company_name symbol count l [] := by
    cases l with
    | nil => exact absurd rfl hne
    | cons a rest => simp [fetch_news_articles, hk, hapi]
  rw [hfetch]
  refine ⟨collectLoop_all_relevant env.nlpM env.fullText company_name symbol
      count l [] rfl,
    collectLoop_nodup_urls env.nlpM env.fullText company_name symbol count l []
      (by simp), ?_,
    collectLoop_length_le env.nlpM env.fullText company_name symbol count l []
      (by simpa using hc)⟩
  obtain ⟨t, ht, hs⟩ := collectLoop_urls_sublist env.nlpM env.fullText
    company_name symbol count l []
  rw [ht]
  simpa using hs

/-- C6 witness: the amended theorem applied to a one-article News API
response. -/
theorem C6_amended_primary_path_witness :
    ((fetch_news_articles envNA "AAPL" "Apple Inc." 5).1.all
        fun a => check_article_relevance envNA.nlpM a "Apple Inc." "AAPL")
      = true ∧
    ((fetch_news_articles envNA "AAPL" "Apple Inc." 5).1.map
        fun a => a.url).Nodup ∧
    ((fetch_news_articles envNA "AAPL" "Apple Inc." 5).1.map
        fun a => a.url).Sublist ([artRel].map fun a => a.url) ∧
    (fetch_news_articles envNA "AAPL" "Apple Inc." 5).1.length ≤ 5 :=
  C6_amended_primary_path envNA "AAPL" "Apple Inc." 5 [artRel]
    (by decide) rfl rfl (List.cons_ne_nil artRel [])

/-! ### C1 -/

/-- C1 counterexample: with a primary provider that fails on every call, the
claimed retry policy (3 primary attempts for maxAttempts 3, at least the 2
inter-attempt backoff delays, then exactly one secondary-provider fallback
call) does not hold: the code makes exactly one primary attempt, sleeps never,
and never calls the secondary provider. -/
theorem C1_counterexample :
    ¬ ((fetch_stock_data pFail).2.count ProviderEvent.primaryHistoryCall = 3 ∧
       2 ≤ (fetch_stock_data pFail).2.countP isSleepEvent ∧
       (fetch_stock_data pFail).2.count ProviderEvent.secondaryPriceCall
         = 1) := by
  decide

/-- C1 amended: for every provider behaviour, the market-data fetch makes
exactly one primary history call, takes no backoff delay, and never contacts
the secondary time-series price provider. -/
theorem C1_amended_single_attempt (p : MarketProvider) :
    (fetch_stock_data p).2.count ProviderEvent.primaryHistoryCall = 1 ∧
    (fetch_stock_data p).2.countP isSleepEvent = 0 ∧
    (fetch_stock_data p).2.count ProviderEvent.secondaryPriceCall = 0 := by
  rcases p with ⟨h, i, av, rec⟩
  rcases h with _ | hist
  · simp only [fetch_stock_data]
    decide
  · cases hist with
    | nil =>
        simp only [fetch_stock_data, List.isEmpty_nil, if_true]
        decide
    | cons pt pts =>
        rcases i with _ | blob <;>
          simp only [fetch_stock_data, List.isEmpty_cons, Bool.false_eq_true,
            if_false] <;>
          decide

/-! ### C2 -/

/-- C2 counterexample: when the primary provider returns an empty price
history, the fetch does not return an empty PriceSeries success value at all;
it returns the very same (None, None) pair a fetch failure returns, so the two
outcomes are indistinguishable. -/
theorem C2_counterexample :
    (¬ ∃ r, (fetch_stock_data pEmptyHist).1 = some r) ∧
    (fetch_stock_data pEmptyHist).1 = (fetch_stock_data pFail).1 := by
  constructor
  · rintro ⟨r, h⟩
    exact Option.noConfusion h
  · rfl

/-- C2 amended: an empty primary price history makes the fetch return the
failure pair (None, None), the identical value produced when the primary
provider raises, so no-data is not distinguishable from failure. -/
theorem C2_amended_empty_is_failure (p q : MarketProvider)
    (hp : p.history = some []) (hq : q.history = none) :
    (fetch_stock_data p).1 = none ∧
    (fetch_stock_data p).1 = (fetch_stock_data q).1 := by
  rcases p with ⟨ph, pi, pa, pr⟩
  rcases q with ⟨qh, qi, qa, qr⟩
  simp only at hp hq
  subst hp
  subst hq
  simp [fetch_stock_data]

/-- C2 witness: the amended theorem at the concrete empty-history and failing
providers. -/
theorem C2_amended_empty_is_failure_witness :
    (fetch_stock_data pEmptyHist).1 = none ∧
    (fetch_stock_data pEmptyHist).1 = (fetch_stock_data pFail).1 :=
  C2_amended_empty_is_failure pEmptyHist pFail rfl rfl

/-! ### C7 -/

/-- C7: whenever the start date is at or after the end date, main rejects the
request locally with the input error and an empty event log, so no market or
news provider is contacted and neither cached sub-pipeline is entered. -/
theorem C7_input_validation_no_calls (env : Env) (symbol : String)
    (start_date end_date : Int) (h : end_date ≤ start_date) :
    mainRun env symbol start_date end_date = (MainOutcome.inputError, []) := by
  unfold mainRun
  rw [if_pos h]

/-- C7 witness: equal start and end dates are rejected with zero provider
events. -/
theorem C7_input_validation_no_calls_witness :
    ((5 : Int) ≤ 5) ∧
    mainRun envQuiet "AAPL" 5 5 = (MainOutcome.inputError, []) :=
  ⟨le_refl 5, C7_input_validation_no_calls envQuiet "AAPL" 5 5 (le_refl 5)⟩

/-! ### C8 -/

theorem market_log_no_news (p : MarketProvider) :
    ((fetch_stock_data p).2.all fun ev => !(isNewsEvent ev)) = true := by
  rcases p with ⟨h, i, av, rec⟩
  rcases h with _ | hist
  · simp only [fetch_stock_data]
    decide
  · cases hist with
    | nil =>
        simp only [fetch_stock_data, List.isEmpty_nil, if_true]
        decide
    | cons pt pts =>
        rcases i with _ | blob <;>
          simp only [fetch_stock_data, List.isEmpty_cons, Bool.false_eq_true,
            if_false] <;>
          decide

/-- C8 counterexample: with the market fetch failing while the news providers
stand ready with a relevant article, the run makes no news-provider call at
all and reports a bare failure, so the claim that the news and sentiment
sub-pipeline still runs and is reported is false at this input. -/
theorem C8_counterexample :
    ¬ (((mainRun envFail "AAPL" 0 1).2.any fun ev => isNewsEvent ev)
        = true) := by
  decide

/-- C8 amended: the two sub-pipelines are sequenced, not independent.  When the
market fetch fails, main reports the bare failure and its event log holds no
news-provider call; in the other direction, when the market fetch succeeds and
the news fetch comes back empty, the market report is still produced, with the
sentiment part marked unavailable. -/
theorem C8_amended_sequencing (env1 env2 : Env) (symbol : String)
    (start_date end_date : Int) (hd : start_date < end_date)
    (hs : symbol ≠ "") (h1 : (fetch_stock_data env1.market).1 = none)
    (hist : List PricePoint) (info : DetailedInfo)
    (h2 : (fetch_stock_data env2.market).1 = some (hist, info))
    (h3 : (fetch_news_articles env2 symbol
        (infoGet info.fields "longName") 5).1 = []) :
    (mainRun env1 symbol start_date end_date).1 = MainOutcome.fetchFailed ∧
    ((mainRun env1 symbol start_date end_date).2.all
        fun ev => !(isNewsEvent ev)) = true ∧
    (mainRun env2 symbol start_date end_date).1 =
      MainOutcome.report { marketInfoShown := true, sentiment := none } := by
  have hnle : ¬ end_date ≤ start_date := not_le.mpr hd
  rcases hf1 : fetch_stock_data env1.market with ⟨r1, log1⟩
  rcases hf2 : fetch_stock_data env2.market with ⟨r2, log2⟩
  rw [hf1] at h1
  rw [hf2] at h2
  have h1x : r1 = none := h1
  have h2x : r2 = some (hist, info) := h2
  subst h1x
  subst h2x
  refine ⟨?_, ?_, ?_⟩
  · simp [mainRun, hnle, hs, hf1]
  · have hall := market_log_no_news env1.market
    rw [hf1] at hall
    simpa [mainRun, hnle, hs, hf1] using hall
  · simp [mainRun, hnle, hs, hf2, display_stock_info, h3]

/-- C8 witness: the amended theorem at a failing-market environment and at a
succeeding-market environment whose news sources are empty. -/
theorem C8_amended_sequencing_witness :
    (mainRun envFail "AAPL" 0 1).1 = MainOutcome.fetchFailed ∧
    ((mainRun envFail "AAPL" 0 1).2.all fun ev => !(isNewsEvent ev)) = true ∧
    (mainRun envOk "AAPL" 0 1).1 =
      MainOutcome.report { marketInfoShown := true, sentiment := none } :=
  C8_amended_sequencing envFail envOk "AAPL" 0 1 (by decide) (by decide) rfl
    [ptY] infoY rfl rfl
